import Mathlib

/-
  Shallow embedding of the HRMS portal backend (src/routers.ts, src/db.ts,
  src/models.ts).  Documents are flat records keyed by numeric ids; dates
  are milliseconds since the Unix epoch, as produced by JS Date.getTime().
  JS numbers are modelled by rationals.  Fallible handlers return Except:
  an error result corresponds to a thrown TRPCError, which aborts the
  request before any further store write, so only ok results carry a store.
-/

namespace HRMS

/-- Milliseconds since the Unix epoch (JS Date.getTime()). -/
abbrev Millis := Int

/-- Status enum of a time entry (models.ts timeEntrySchema:
    active / completed / early_out). -/
inductive TEStatus
  | active
  | completed
  | early_out
deriving DecidableEq, Repr

/-- A time-entry document (models.ts ITimeEntry).  totalHours and timeOut
    are optional fields; createdAt comes from the timestamps option. -/
structure TimeEntry where
  id : Nat
  userId : Nat
  timeIn : Millis
  timeOut : Option Millis := none
  totalHours : Option ℚ := none
  status : TEStatus := .active
  notes : Option String := none
  createdAt : Millis := 0
deriving DecidableEq, Repr

/-- A break-log document (models.ts IBreakLog). -/
structure BreakLog where
  id : Nat
  timeEntryId : Nat
  userId : Nat
  breakStart : Millis
  breakEnd : Option Millis := none
  duration : Option Int := none
deriving DecidableEq, Repr

/-- Announcement priority enum (models.ts announcementSchema). -/
inductive Priority
  | low
  | medium
  | high
deriving DecidableEq, Repr

/-- An announcement document (models.ts IAnnouncement). -/
structure Announcement where
  id : Nat
  title : String := ""
  content : String := ""
  priority : Priority := .medium
  isActive : Bool := true
  createdBy : Nat := 0
  expiresAt : Option Millis := none
  createdAt : Millis := 0
deriving DecidableEq, Repr

/-- A read-tracking document (models.ts IAnnouncementRead). -/
structure AnnouncementRead where
  id : Nat
  announcementId : Nat
  userId : Nat
  readAt : Millis := 0
deriving DecidableEq, Repr

/-- User role enum (models.ts userSchema). -/
inductive Role
  | user
  | admin
deriving DecidableEq, Repr

/-- A user document (models.ts IUser), restricted to the fields the
    verified handlers touch.  openId and employeeId carry unique indexes. -/
structure User where
  id : Nat
  openId : String
  name : String := ""
  email : Option String := none
  role : Role := .user
  employeeId : Option String := none
  password : Option String := none
  department : Option String := none
  position : Option String := none
deriving DecidableEq, Repr

/-- An employee document record (models.ts EmployeeDocument), keyed by
    (userId, documentType) in upsertEmployeeDocument. -/
structure EmployeeDocument where
  userId : Nat
  documentType : String
  title : String
  documentUrl : String
  uploadedBy : Nat
deriving DecidableEq, Repr

/-- The document store: one list per collection, in natural (insertion)
    order, plus a fresh-id counter standing in for ObjectId generation. -/
structure Store where
  users : List User := []
  timeEntries : List TimeEntry := []
  breakLogs : List BreakLog := []
  announcements : List Announcement := []
  announcementReads : List AnnouncementRead := []
  employeeDocuments : List EmployeeDocument := []
  nextId : Nat := 0
deriving DecidableEq, Repr

/-- TRPCError codes used by the routers (plus INTERNAL for rethrown
    store errors). -/
inductive ErrCode
  | UNAUTHORIZED
  | BAD_REQUEST
  | FORBIDDEN
  | CONFLICT
  | NOT_FOUND
  | INTERNAL
deriving DecidableEq, Repr

/-- JS Number.prototype.toFixed(d) read back with Number(...), on the
    rational model of JS numbers: round to d decimal places, ties away
    from zero on the nonnegative values that occur here. -/
def toFixed (d : Nat) (x : ℚ) : ℚ :=
  ((⌊x * 10 ^ d + 1 / 2⌋ : Int) : ℚ) / 10 ^ d

/-- Predicate for the Mongo filter of db.ts getActiveTimeEntry:
    userId matches and status is "active". -/
def isActiveEntryOf (u : Nat) (e : TimeEntry) : Bool :=
  e.userId == u && e.status == .active

/-- First document of a list under sort createdAt descending (findOne with
    .sort createdAt -1): the earliest-inserted entry of maximal createdAt. -/
def pickLatest : List TimeEntry → Option TimeEntry
  | [] => none
  | e :: es =>
    match pickLatest es with
    | none => some e
    | some e2 => if e.createdAt < e2.createdAt then some e2 else some e

/-- db.ts getActiveTimeEntry: findOne on userId + status "active",
    sorted by createdAt descending. -/
def getActiveTimeEntry (s : Store) (u : Nat) : Option TimeEntry :=
  pickLatest (s.timeEntries.filter (isActiveEntryOf u))

/-- The entry document created by timeTracking.clockIn via
    db.createTimeEntry: timeIn = now, status "active", no timeOut. -/
def newTimeEntry (s : Store) (u : Nat) (now : Millis) : TimeEntry :=
  { id := s.nextId, userId := u, timeIn := now, status := .active, createdAt := now }

/-- routers.ts timeTracking.clockIn: reject with BAD_REQUEST when an
    active entry exists, otherwise create one new active entry. -/
def clockIn (s : Store) (u : Nat) (now : Millis) : Except ErrCode Store :=
  match getActiveTimeEntry s u with
  | some _ => .error .BAD_REQUEST
  | none =>
    .ok { s with timeEntries := s.timeEntries ++ [newTimeEntry s u now],
                 nextId := s.nextId + 1 }

/-- db.ts updateTimeEntry (findByIdAndUpdate), applied pointwise to the
    documents whose _id matches. -/
def updateTimeEntry (s : Store) (i : Nat) (f : TimeEntry → TimeEntry) : Store :=
  { s with timeEntries := s.timeEntries.map (fun e => if e.id = i then f e else e) }

/-- The value returned by timeTracking.clockOut. -/
structure ClockOutResult where
  totalHours : ℚ
  status : TEStatus
deriving DecidableEq, Repr

/-- routers.ts timeTracking.clockOut: totalHours = (timeOut - timeIn) /
    (1000*60*60); status early_out when the raw totalHours < 13 / 2, else
    completed; the entry is updated with timeOut, the two-decimal rounding
    of totalHours, status and notes; the rounded hours are returned. -/
def clockOut (s : Store) (u : Nat) (now : Millis) (notes : Option String) :
    Except ErrCode (Store × ClockOutResult) :=
  match getActiveTimeEntry s u with
  | none => .error .BAD_REQUEST
  | some e =>
    let totalHours : ℚ := ((now - e.timeIn : Int) : ℚ) / (1000 * 60 * 60)
    let status : TEStatus := if totalHours < 13 / 2 then .early_out else .completed
    let s2 := updateTimeEntry s e.id (fun old =>
      { old with timeOut := some now, totalHours := some (toFixed 2 totalHours),
                 status := status, notes := notes })
    .ok (s2, { totalHours := toFixed 2 totalHours, status := status })

/-- db.ts getActiveBreak: findOne on timeEntryId with breakEnd missing
    or null. -/
def getActiveBreak (s : Store) (teId : Nat) : Option BreakLog :=
  s.breakLogs.find? (fun b => b.timeEntryId == teId && b.breakEnd == none)

/-- The break-log document created by timeTracking.startBreak. -/
def newBreak (s : Store) (teId u : Nat) (now : Millis) : BreakLog :=
  { id := s.nextId, timeEntryId := teId, userId := u, breakStart := now }

/-- routers.ts timeTracking.startBreak: BAD_REQUEST when there is no
    active entry or a break is already open; else create one break. -/
def startBreak (s : Store) (u : Nat) (now : Millis) : Except ErrCode Store :=
  match getActiveTimeEntry s u with
  | none => .error .BAD_REQUEST
  | some e =>
    match getActiveBreak s e.id with
    | some _ => .error .BAD_REQUEST
    | none =>
      .ok { s with breakLogs := s.breakLogs ++ [newBreak s e.id u now],
                   nextId := s.nextId + 1 }

/-- routers.ts timeTracking.endBreak: duration = Math.floor of
    (breakEnd - breakStart) / (1000*60); the break is closed with
    breakEnd and duration, and the duration is returned. -/
def endBreak (s : Store) (u : Nat) (now : Millis) : Except ErrCode (Store × Int) :=
  match getActiveTimeEntry s u with
  | none => .error .BAD_REQUEST
  | some e =>
    match getActiveBreak s e.id with
    | none => .error .BAD_REQUEST
    | some b =>
      let duration : Int := (now - b.breakStart).fdiv (1000 * 60)
      .ok ({ s with breakLogs := s.breakLogs.map (fun x =>
              if x.id = b.id then { x with breakEnd := some now, duration := some duration }
              else x) }, duration)

/-- A store with one active entry for user 7, clocked in at epoch 0. -/
def demoEntry : TimeEntry :=
  { id := 1, userId := 7, timeIn := 0, status := .active, createdAt := 0 }

/-- Demo store used by concrete witnesses. -/
def demoStore : Store :=
  { timeEntries := [demoEntry], nextId := 2 }

/-- Demo store with an open break for the active entry of user 7. -/
def demoBreak : BreakLog :=
  { id := 2, timeEntryId := 1, userId := 7, breakStart := 10 }

/-- Demo store with one active entry and one open break. -/
def demoStoreBreak : Store :=
  { timeEntries := [demoEntry], breakLogs := [demoBreak], nextId := 3 }

/-- Glossary invariant: a time entry has status "active" exactly when it
    has no clock-out timestamp. -/
def entryInvariant (s : Store) : Prop :=
  ∀ e ∈ s.timeEntries, (e.status = TEStatus.active ↔ e.timeOut = none)

/-- PRIORITY_RANK (db.ts): high 3, medium 2, low 1. -/
def priorityRank : Priority → Int
  | .high => 3
  | .medium => 2
  | .low => 1

/-- The Mongo filter of getActiveAnnouncements: isActive, and expiresAt
    missing, null, or strictly after now. -/
def announcementVisible (now : Millis) (a : Announcement) : Bool :=
  a.isActive && (match a.expiresAt with
                 | none => true
                 | some t => now < t)

/-- Key relation of the Mongo pre-sort of getActiveAnnouncements:
    createdAt descending. -/
def createdDescLE (a b : Announcement) : Prop := b.createdAt ≤ a.createdAt

instance : DecidableRel createdDescLE := fun a b =>
  inferInstanceAs (Decidable (b.createdAt ≤ a.createdAt))

/-- The JS comparator of getActiveAnnouncements: rank of b minus rank of a
    when nonzero, else createdAt of b minus createdAt of a. -/
def annCmp (a b : Announcement) : Int :=
  if priorityRank b.priority - priorityRank a.priority ≠ 0 then
    priorityRank b.priority - priorityRank a.priority
  else b.createdAt - a.createdAt

/-- a sorts no later than b under the comparator (result at most 0). -/
def annLE (a b : Announcement) : Prop := annCmp a b ≤ 0

instance : DecidableRel annLE := fun a b =>
  inferInstanceAs (Decidable (annCmp a b ≤ 0))

instance : IsTotal Announcement annLE where
  total a b := by
    unfold annLE annCmp
    split_ifs <;> omega

instance : IsTrans Announcement annLE where
  trans a b c := by
    unfold annLE annCmp
    split_ifs <;> omega

/-- db.ts getActiveAnnouncements: filter to active, unexpired
    announcements, Mongo sort by createdAt descending, then the JS
    stable sort by the comparator (both stable sorts modelled by
    insertion sort). -/
def getActiveAnnouncements (s : Store) (now : Millis) : List Announcement :=
  ((s.announcements.filter (announcementVisible now)).insertionSort
    createdDescLE).insertionSort annLE

/-- db.ts deleteAnnouncement: findByIdAndDelete of the announcement,
    then deleteMany of the read-tracking records with that
    announcementId. -/
def deleteAnnouncement (s : Store) (i : Nat) : Store :=
  { s with announcements := s.announcements.filter (fun a => a.id != i),
           announcementReads := s.announcementReads.filter (fun r => r.announcementId != i) }

/-- admin.deleteAnnouncement handler (routers.ts): admin gate, then the
    db delete. -/
def adminDeleteAnnouncement (s : Store) (callerRole : Role) (i : Nat) : Except ErrCode Store :=
  if callerRole ≠ Role.admin then .error .FORBIDDEN
  else .ok (deleteAnnouncement s i)

/-- Milliseconds in one day. -/
def dayMs : Int := 86400000

/-- UTC calendar-day index of a timestamp: the day named by
    toISOString().slice(0, 10).  fdiv floors also before the epoch. -/
def dayKey (t : Millis) : Int := t.fdiv dayMs

/-- Midnight of the day of t: setHours(0,0,0,0) on a UTC server. -/
def startOfDay (t : Millis) : Millis := dayKey t * dayMs

/-- One day bucket of getAverageHoursByDay. -/
structure Bucket where
  total : ℚ
  count : Nat
deriving DecidableEq, Repr

/-- Timestamp fallback of getAverageHoursByDay: (timeOut - timeIn) in
    hours, zero when the entry has no timeOut. -/
def entryHoursFallback (e : TimeEntry) : ℚ :=
  match e.timeOut with
  | some t => ((t - e.timeIn : Int) : ℚ) / (1000 * 60 * 60)
  | none => 0

/-- Hours of one entry as the code reads them: the test
    "entry.totalHours ?" is a JS truthiness test, so a stored totalHours
    of 0 falls through to the timestamp fallback. -/
def entryHours (e : TimeEntry) : ℚ :=
  match e.totalHours with
  | some h => if h ≠ 0 then h else entryHoursFallback e
  | none => entryHoursFallback e

/-- Mongo filter of getAverageHoursByDay: timeIn within [start, last]
    and status different from "active". -/
def inWindow (start last : Millis) (e : TimeEntry) : Bool :=
  decide (start ≤ e.timeIn) && decide (e.timeIn ≤ last) && e.status != .active

/-- One step of the entries.forEach loop: the bucket keyed by the
    entry's calendar day, when present in the map, accumulates the
    entry's hours and its count; an entry whose key is absent is
    skipped (the "if (!bucket) return" guard). -/
def addEntry (m : List (Int × Bucket)) (e : TimeEntry) : List (Int × Bucket) :=
  m.map (fun kv => if kv.1 = dayKey e.timeIn
                   then (kv.1, { total := kv.2.total + entryHours e, count := kv.2.count + 1 })
                   else kv)

/-- Weekday labels of the output rows. -/
def weekdayLabels : List String := ["Sun", "Mon", "Tue", "Wed", "Thu", "Fri", "Sat"]

/-- Weekday label of a day key (epoch day 0 is a Thursday). -/
def weekdayOf (k : Int) : String := weekdayLabels.getD ((k + 4).emod 7).toNat ""

/-- Day keys of the trailing window, oldest first (the loop that
    pre-seeds the Map with one empty bucket per day). -/
def dayKeys (start : Millis) (days : Nat) : List Int :=
  (List.range days).map (fun i => dayKey (start + (i : Int) * dayMs))

/-- db.ts getAverageHoursByDay on a UTC server: start is midnight
    (days - 1) days before now; the entries with timeIn in [start, now]
    and non-active status are folded into per-day buckets; each row is
    the weekday label and the bucket average (0 for an empty bucket)
    rounded to one decimal. -/
def getAverageHoursByDay (s : Store) (days : Nat) (now : Millis) : List (String × ℚ) :=
  let start := startOfDay (now - ((days : Int) - 1) * dayMs)
  let entries := s.timeEntries.filter (inWindow start now)
  let init := (dayKeys start days).map (fun k => (k, ({ total := 0, count := 0 } : Bucket)))
  let final := entries.foldl addEntry init
  final.map (fun kv =>
    (weekdayOf kv.1, toFixed 1 (if kv.2.count ≠ 0 then kv.2.total / (kv.2.count : ℚ) else 0)))

/-- The per-entry hours rule exactly as C4 states it: the stored
    totalHours is used whenever that value is present; otherwise hours
    are recomputed as (timeOut - timeIn) in hours, zero if no timeOut. -/
def specEntryHours (e : TimeEntry) : ℚ :=
  match e.totalHours with
  | some h => h
  | none =>
    match e.timeOut with
    | some t => ((t - e.timeIn : Int) : ℚ) / 3600000
    | none => 0

/-- The aggregation as C4 states it: per calendar day of the trailing
    window, the average of specEntryHours over that day's non-active
    window entries, zero for a day with no entries. -/
def specAverageHoursByDay (s : Store) (days : Nat) (now : Millis) : List (String × ℚ) :=
  let start := startOfDay (now - ((days : Int) - 1) * dayMs)
  (dayKeys start days).map (fun k =>
    let es := s.timeEntries.filter (fun e => (dayKey e.timeIn == k) && inWindow start now e)
    (weekdayOf k, toFixed 1 (if es.length ≠ 0 then (es.map specEntryHours).sum / (es.length : ℚ) else 0)))

/-- The same declarative aggregation with the truthiness-faithful hours
    rule of entryHours (stored totalHours used only when nonzero). -/
def codeAverageHoursByDay (s : Store) (days : Nat) (now : Millis) : List (String × ℚ) :=
  let start := startOfDay (now - ((days : Int) - 1) * dayMs)
  (dayKeys start days).map (fun k =>
    let es := s.timeEntries.filter (fun e => (dayKey e.timeIn == k) && inWindow start now e)
    (weekdayOf k, toFixed 1 (if es.length ≠ 0 then (es.map entryHours).sum / (es.length : ℚ) else 0)))

/-- Entry with a stored totalHours of 0 (present) and a 2-hour
    timestamp span, as a clock-out of under 18 seconds would store. -/
def zeroHoursEntry : TimeEntry :=
  { id := 1, userId := 1, timeIn := 864000000, timeOut := some 871200000,
    totalHours := some 0, status := .completed, createdAt := 0 }

/-- Store holding only zeroHoursEntry. -/
def zeroHoursStore : Store := { timeEntries := [zeroHoursEntry], nextId := 2 }

/-- bcrypt.hash modelled as an abstract tagging function (the claims
    never inspect hashes). -/
def hashPassword (p : String) : String := "bcrypt-hash:" ++ p

/-- Input of employees.create after zod validation (the three optional
    urls feed the document upserts). -/
structure EmployeeInput where
  name : String
  email : String
  employeeId : String
  password : String
  department : Option String := none
  position : Option String := none
  cnicFrontUrl : Option String := none
  cnicBackUrl : Option String := none
  offerLetterUrl : Option String := none
deriving DecidableEq, Repr

/-- Mongo User.create under the unique indexes on openId and the sparse
    unique index on employeeId: raises error code 11000 when a
    duplicate exists, else appends the document. -/
def userCreate (s : Store) (u : User) : Except Int Store :=
  if s.users.any (fun v => v.openId == u.openId ||
      (u.employeeId != none && v.employeeId == u.employeeId)) then
    .error 11000
  else .ok { s with users := s.users ++ [u] }

/-- db.ts createEmployee: hash the password, derive openId as
    "emp-" + employeeId.toLowerCase(), create the user document. -/
def createEmployee (s : Store) (inp : EmployeeInput) : Except Int (Store × User) :=
  let u : User :=
    { id := s.nextId, openId := "emp-" ++ inp.employeeId.toLower, name := inp.name,
      email := some inp.email, role := .user, employeeId := some inp.employeeId,
      password := some (hashPassword inp.password), department := inp.department,
      position := inp.position }
  match userCreate s u with
  | .error c => .error c
  | .ok s2 => .ok ({ s2 with nextId := s2.nextId + 1 }, u)

/-- db.ts upsertEmployeeDocument: findOneAndUpdate with upsert on
    (userId, documentType). -/
def upsertEmployeeDocument (s : Store) (d : EmployeeDocument) : Store :=
  if s.employeeDocuments.any (fun x => x.userId == d.userId && x.documentType == d.documentType) then
    { s with employeeDocuments := s.employeeDocuments.map (fun x =>
        if x.userId == d.userId && x.documentType == d.documentType then
          { x with title := d.title, documentUrl := d.documentUrl, uploadedBy := d.uploadedBy }
        else x) }
  else { s with employeeDocuments := s.employeeDocuments ++ [d] }

/-- One optional document upload of the create/update handlers (JS
    truthiness: a missing or empty url is skipped). -/
def maybeUpsertDoc (caller uid : Nat) (ty ttl : String) (url : Option String) (s : Store) : Store :=
  match url with
  | some u =>
    if u ≠ "" then
      upsertEmployeeDocument s
        { userId := uid, documentType := ty, title := ttl, documentUrl := u, uploadedBy := caller }
    else s
  | none => s

/-- routers.ts employees.create: admin gate; db.createEmployee plus the
    optional document upserts; a store error with code 11000 becomes
    CONFLICT, any other thrown error is rethrown (INTERNAL here). -/
def employeesCreate (s : Store) (callerId : Nat) (callerRole : Role) (inp : EmployeeInput) :
    Except ErrCode (Store × User) :=
  if callerRole ≠ Role.admin then .error .FORBIDDEN
  else
    match createEmployee s inp with
    | .error c => if c = 11000 then .error .CONFLICT else .error .INTERNAL
    | .ok (s2, emp) =>
      let s3 := maybeUpsertDoc callerId emp.id "id_proof_front" "CNIC Front" inp.cnicFrontUrl s2
      let s4 := maybeUpsertDoc callerId emp.id "id_proof_back" "CNIC Back" inp.cnicBackUrl s3
      let s5 := maybeUpsertDoc callerId emp.id "offer_letter" "Job Offer Letter" inp.offerLetterUrl s4
      .ok (s5, emp)

/-- Update payload of employees.update / db.updateEmployee. -/
structure EmployeeUpdate where
  name : Option String := none
  email : Option String := none
  employeeId : Option String := none
  password : Option String := none
  department : Option String := none
  position : Option String := none
deriving DecidableEq, Repr

/-- The $set payload applied to a user document; the password is hashed
    and "if (updates.password)" skips empty strings. -/
def applyEmployeeUpdate (upd : EmployeeUpdate) (v : User) : User :=
  { v with
    name := upd.name.getD v.name,
    email := match upd.email with | some e => some e | none => v.email,
    employeeId := match upd.employeeId with | some i => some i | none => v.employeeId,
    department := match upd.department with | some d => some d | none => v.department,
    position := match upd.position with | some p => some p | none => v.position,
    password := match upd.password with
      | some p => if p ≠ "" then some (hashPassword p) else v.password
      | none => v.password }

/-- Mongo findByIdAndUpdate on User under the sparse unique employeeId
    index: error code 11000 when another user already holds the new
    employeeId. -/
def userUpdate (s : Store) (i : Nat) (upd : EmployeeUpdate) : Except Int Store :=
  if (match upd.employeeId with
      | some eid => s.users.any (fun v => v.id != i && v.employeeId == some eid)
      | none => false) then
    .error 11000
  else
    .ok { s with users := s.users.map (fun v => if v.id = i then applyEmployeeUpdate upd v else v) }

/-- db.ts updateEmployee: findByIdAndUpdate, then read the user back. -/
def updateEmployee (s : Store) (i : Nat) (upd : EmployeeUpdate) :
    Except Int (Store × Option User) :=
  match userUpdate s i upd with
  | .error c => .error c
  | .ok s2 => .ok (s2, s2.users.find? (fun v => v.id == i))

/-- routers.ts employees.update: admin gate; db.updateEmployee plus the
    optional document upserts; a store error with code 11000 becomes
    CONFLICT. -/
def employeesUpdate (s : Store) (callerId : Nat) (callerRole : Role) (i : Nat)
    (upd : EmployeeUpdate) (cnicFrontUrl cnicBackUrl offerLetterUrl : Option String) :
    Except ErrCode (Store × Option User) :=
  if callerRole ≠ Role.admin then .error .FORBIDDEN
  else
    match updateEmployee s i upd with
    | .error c => if c = 11000 then .error .CONFLICT else .error .INTERNAL
    | .ok (s2, emp) =>
      let s3 := maybeUpsertDoc callerId i "id_proof_front" "CNIC Front" cnicFrontUrl s2
      let s4 := maybeUpsertDoc callerId i "id_proof_back" "CNIC Back" cnicBackUrl s3
      let s5 := maybeUpsertDoc callerId i "offer_letter" "Job Offer Letter" offerLetterUrl s4
      .ok (s5, emp)

/-- Existing user holding employeeId E1. -/
def dupUserA : User := { id := 1, openId := "emp-e1", employeeId := some "E1" }

/-- Existing user holding employeeId E2. -/
def dupUserB : User := { id := 2, openId := "emp-e2", employeeId := some "E2" }

/-- Store with the two users above. -/
def dupStore : Store := { users := [dupUserA, dupUserB], nextId := 3 }

/-- Create input colliding with dupUserA's employeeId. -/
def dupInput : EmployeeInput :=
  { name := "X", email := "x@y.z", employeeId := "E1", password := "secret1" }

/-- C1: for every clock-out of a user with an active time entry, the
    totalHours value returned, and the one stored on the entry, equal
    (timeOut - timeIn) in milliseconds divided by 3600000, rounded to two
    decimal places. -/
theorem clockOut_totalHours (s : Store) (u : Nat) (now : Millis) (notes : Option String)
    (e : TimeEntry) (h : getActiveTimeEntry s u = some e)
    (s2 : Store) (r : ClockOutResult)
    (h2 : clockOut s u now notes = Except.ok (s2, r)) :
    r.totalHours = toFixed 2 (((now - e.timeIn : Int) : ℚ) / 3600000) ∧
    ∀ x ∈ s2.timeEntries, x.id = e.id →
      x.totalHours = some (toFixed 2 (((now - e.timeIn : Int) : ℚ) / 3600000)) := by
  have h36 : (1000 * 60 * 60 : ℚ) = 3600000 := by norm_num
  unfold clockOut at h2
  rw [h] at h2
  simp only [h36, Except.ok.injEq, Prod.mk.injEq] at h2
  obtain ⟨hs2, hr⟩ := h2
  subst hs2
  subst hr
  constructor
  · rfl
  · intro x hx hid
    simp only [updateTimeEntry, List.mem_map] at hx
    obtain ⟨y, hy, hxy⟩ := hx
    by_cases hyid : y.id = e.id
    · subst hxy
      simp [hyid]
    · subst hxy
      simp only [if_neg hyid] at hid
      exact absurd hid hyid

/-- C1 witness: clocking user 7 out of demoStore at 7200000 ms yields
    2.00 total hours, returned and stored. -/
theorem clockOut_totalHours_w :
    ({ totalHours := 2, status := .early_out } : ClockOutResult).totalHours
      = toFixed 2 (((7200000 - demoEntry.timeIn : Int) : ℚ) / 3600000) ∧
    ∀ x ∈ ({ demoStore with timeEntries :=
        [{ demoEntry with timeOut := some 7200000, totalHours := some 2,
                          status := .early_out, notes := none }] } : Store).timeEntries,
      x.id = demoEntry.id →
      x.totalHours = some (toFixed 2 (((7200000 - demoEntry.timeIn : Int) : ℚ) / 3600000)) :=
  clockOut_totalHours demoStore 7 7200000 none demoEntry (by rfl)
    { demoStore with timeEntries :=
        [{ demoEntry with timeOut := some 7200000, totalHours := some 2,
                          status := .early_out, notes := none }] }
    { totalHours := 2, status := .early_out } (by with_unfolding_all rfl)

/-- C2 counterexample: at elapsed time 23396400 ms (6.499 raw hours) the
    clock-out status is early_out, although the elapsed hours rounded to
    two decimals equal 6.50, which is not strictly below 6.5 — so the
    claim that the early_out classification is applied to the rounded
    hours is false of the code. -/
theorem clockOut_status_rounded_cex :
    (clockOut demoStore 7 23396400 none).toOption.map (fun p => p.2.status)
      = some TEStatus.early_out ∧
    ¬ toFixed 2 ((23396400 : ℚ) / 3600000) < 13 / 2 := by
  constructor
  · with_unfolding_all rfl
  · with_unfolding_all decide

/-- C2 (amended): the clock-out status is early_out iff the raw
    (unrounded) elapsed hours (timeOut - timeIn) / 3600000 are strictly
    below 6.5, and completed otherwise; the classification reads the
    unrounded value, not the two-decimal rounding that is stored. -/
theorem clockOut_status_raw (s : Store) (u : Nat) (now : Millis) (notes : Option String)
    (e : TimeEntry) (h : getActiveTimeEntry s u = some e)
    (s2 : Store) (r : ClockOutResult)
    (h2 : clockOut s u now notes = Except.ok (s2, r)) :
    (r.status = TEStatus.early_out ↔ ((now - e.timeIn : Int) : ℚ) / 3600000 < 13 / 2) ∧
    (r.status = TEStatus.early_out ∨ r.status = TEStatus.completed) := by
  have h36 : (1000 * 60 * 60 : ℚ) = 3600000 := by norm_num
  unfold clockOut at h2
  rw [h] at h2
  simp only [h36, Except.ok.injEq, Prod.mk.injEq] at h2
  obtain ⟨hs2, hr⟩ := h2
  have hst : r.status =
      (if ((now - e.timeIn : Int) : ℚ) / 3600000 < 13 / 2 then TEStatus.early_out
       else TEStatus.completed) := by
    rw [← hr]
  rw [hst]
  by_cases hlt : ((now - e.timeIn : Int) : ℚ) / 3600000 < 13 / 2
  · rw [if_pos hlt]
    exact ⟨⟨fun _ => hlt, fun _ => rfl⟩, Or.inl rfl⟩
  · rw [if_neg hlt]
    exact ⟨⟨fun hco => TEStatus.noConfusion hco, fun hl2 => absurd hl2 hlt⟩, Or.inr rfl⟩

/-- C2 witness: at 23382000 ms elapsed (6.495 raw hours) the status is
    early_out, matching the raw comparison 6.495 < 13 / 2. -/
theorem clockOut_status_raw_w :
    (({ totalHours := toFixed 2 ((23382000 : ℚ) / 3600000), status := .early_out } :
        ClockOutResult).status = TEStatus.early_out ↔
      ((23382000 - demoEntry.timeIn : Int) : ℚ) / 3600000 < 13 / 2) ∧
    (({ totalHours := toFixed 2 ((23382000 : ℚ) / 3600000), status := .early_out } :
        ClockOutResult).status = TEStatus.early_out ∨
      ({ totalHours := toFixed 2 ((23382000 : ℚ) / 3600000), status := .early_out } :
        ClockOutResult).status = TEStatus.completed) :=
  clockOut_status_raw demoStore 7 23382000 none demoEntry (by rfl)
    { demoStore with timeEntries :=
        [{ demoEntry with timeOut := some 23382000,
                          totalHours := some (toFixed 2 ((23382000 : ℚ) / 3600000)),
                          status := .early_out, notes := none }] }
    { totalHours := toFixed 2 ((23382000 : ℚ) / 3600000), status := .early_out }
    (by with_unfolding_all rfl)

/-- C3: a clock-in while an active entry exists fails with BAD_REQUEST —
    and, the handler throwing before any write, produces no store
    change — while a clock-in with no active entry creates exactly one
    new entry, with status active (and no clock-out timestamp). -/
theorem clockIn_spec (s : Store) (u : Nat) (now : Millis) :
    (getActiveTimeEntry s u ≠ none → clockIn s u now = Except.error ErrCode.BAD_REQUEST) ∧
    (getActiveTimeEntry s u = none →
      clockIn s u now = Except.ok
        { s with timeEntries := s.timeEntries ++ [newTimeEntry s u now],
                 nextId := s.nextId + 1 } ∧
      (newTimeEntry s u now).status = TEStatus.active ∧
      (newTimeEntry s u now).timeOut = none) := by
  cases h : getActiveTimeEntry s u with
  | none => simp [clockIn, h, newTimeEntry]
  | some e => simp [clockIn, h]

/-- C3 witness: user 7 is active in demoStore, so a second clock-in is
    rejected with BAD_REQUEST. -/
theorem clockIn_spec_w :
    clockIn demoStore 7 100 = Except.error ErrCode.BAD_REQUEST :=
  (clockIn_spec demoStore 7 100).1 (by decide)

/-- C7: break-start fails with BAD_REQUEST exactly when the user has no
    active time entry or the active entry already has an open break (a
    break-log record without an end timestamp); otherwise it opens exactly
    one new break on the active entry, and the new break is open. -/
theorem startBreak_spec (s : Store) (u : Nat) (now : Millis) :
    (startBreak s u now = Except.error ErrCode.BAD_REQUEST ↔
      getActiveTimeEntry s u = none ∨
      ∃ e, getActiveTimeEntry s u = some e ∧ getActiveBreak s e.id ≠ none) ∧
    (∀ s2, startBreak s u now = Except.ok s2 →
      ∃ e, getActiveTimeEntry s u = some e ∧ getActiveBreak s e.id = none ∧
        s2.breakLogs = s.breakLogs ++ [newBreak s e.id u now] ∧
        (newBreak s e.id u now).breakEnd = none) := by
  cases h : getActiveTimeEntry s u with
  | none => simp [startBreak, h]
  | some e =>
    cases hb : getActiveBreak s e.id with
    | none =>
      constructor
      · simp [startBreak, h, hb]
      · intro s2 h2
        refine ⟨e, rfl, hb, ?_, rfl⟩
        simp only [startBreak, h, hb, Except.ok.injEq] at h2
        rw [← h2]
    | some b =>
      constructor
      · simp [startBreak, h, hb]
      · intro s2 h2
        simp [startBreak, h, hb] at h2

/-- C7 witness: in demoStore user 7 is active with no open break, so
    startBreak succeeds and appends exactly one open break. -/
theorem startBreak_spec_w :
    ∃ e, getActiveTimeEntry demoStore 7 = some e ∧ getActiveBreak demoStore e.id = none ∧
      ({ demoStore with breakLogs := demoStore.breakLogs ++ [newBreak demoStore 1 7 50],
                        nextId := 3 } : Store).breakLogs
        = demoStore.breakLogs ++ [newBreak demoStore e.id 7 50] ∧
      (newBreak demoStore e.id 7 50).breakEnd = none :=
  (startBreak_spec demoStore 7 50).2
    { demoStore with breakLogs := demoStore.breakLogs ++ [newBreak demoStore 1 7 50],
                     nextId := 3 } (by rfl)

/-- C8: for every break-end of a user with an active entry and an open
    break, the duration returned, and the one stored on that break, equal
    the break length in whole minutes: floor((breakEnd - breakStart) /
    60000). -/
theorem endBreak_duration (s : Store) (u : Nat) (now : Millis)
    (e : TimeEntry) (he : getActiveTimeEntry s u = some e)
    (b : BreakLog) (hb : getActiveBreak s e.id = some b)
    (s2 : Store) (d : Int) (h2 : endBreak s u now = Except.ok (s2, d)) :
    d = (now - b.breakStart).fdiv 60000 ∧
    ∀ x ∈ s2.breakLogs, x.id = b.id →
      x.duration = some ((now - b.breakStart).fdiv 60000) := by
  have h60 : (1000 * 60 : Int) = 60000 := by norm_num
  unfold endBreak at h2
  rw [he] at h2
  simp only [hb, h60, Except.ok.injEq, Prod.mk.injEq] at h2
  obtain ⟨hs2, hd⟩ := h2
  subst hs2
  subst hd
  refine ⟨rfl, ?_⟩
  intro x hx hid
  simp only [List.mem_map] at hx
  obtain ⟨y, hy, hxy⟩ := hx
  by_cases hyid : y.id = b.id
  · subst hxy
    simp [hyid]
  · subst hxy
    simp only [if_neg hyid] at hid
    exact absurd hid hyid

/-- C8 witness: ending the open break of demoStoreBreak at 130000 ms
    yields floor(129990 / 60000) = 2 whole minutes, returned and stored. -/
theorem endBreak_duration_w :
    (2 : Int) = ((130000 : Int) - demoBreak.breakStart).fdiv 60000 ∧
    ∀ x ∈ ({ demoStoreBreak with breakLogs :=
        [{ demoBreak with breakEnd := some 130000, duration := some 2 }] } : Store).breakLogs,
      x.id = demoBreak.id →
      x.duration = some (((130000 : Int) - demoBreak.breakStart).fdiv 60000) :=
  endBreak_duration demoStoreBreak 7 130000 demoEntry (by rfl) demoBreak (by rfl)
    { demoStoreBreak with breakLogs :=
        [{ demoBreak with breakEnd := some 130000, duration := some 2 }] } 2 (by rfl)

/-- C10: every time-tracking operation preserves the invariant that an
    entry is "active" iff it has no timeOut: clock-in creates active
    entries without timeOut, clock-out sets timeOut together with a
    terminal status, breaks leave entries untouched; consequently the
    status-based active-entry filter agrees with the glossary filter
    "clock-in record without a clock-out timestamp". -/
theorem timeTracking_invariant (s : Store) (u : Nat) (now : Millis) (notes : Option String)
    (hs : entryInvariant s) :
    (∀ s2, clockIn s u now = Except.ok s2 → entryInvariant s2) ∧
    (∀ s2 r, clockOut s u now notes = Except.ok (s2, r) → entryInvariant s2) ∧
    (∀ s2, startBreak s u now = Except.ok s2 → entryInvariant s2) ∧
    (∀ s2 d, endBreak s u now = Except.ok (s2, d) → entryInvariant s2) ∧
    s.timeEntries.filter (isActiveEntryOf u) =
      s.timeEntries.filter (fun e => e.userId == u && e.timeOut == none) := by
  refine ⟨?_, ?_, ?_, ?_, ?_⟩
  · intro s2 h2
    cases h : getActiveTimeEntry s u with
    | some e => simp [clockIn, h] at h2
    | none =>
      simp only [clockIn, h, Except.ok.injEq] at h2
      subst h2
      intro x hx
      rcases List.mem_append.mp hx with hold | hnew
      · exact hs x hold
      · rcases List.mem_singleton.mp hnew with rfl
        simp [newTimeEntry]
  · intro s2 r h2
    cases h : getActiveTimeEntry s u with
    | none => simp [clockOut, h] at h2
    | some e =>
      unfold clockOut at h2
      rw [h] at h2
      simp only [Except.ok.injEq, Prod.mk.injEq] at h2
      obtain ⟨hs2, hr⟩ := h2
      subst hs2
      intro x hx
      simp only [updateTimeEntry, List.mem_map] at hx
      obtain ⟨y, hy, hxy⟩ := hx
      by_cases hyid : y.id = e.id
      · rw [if_pos hyid] at hxy
        subst hxy
        constructor
        · intro hst
          exfalso
          revert hst
          split <;> simp
        · intro hto
          exact absurd hto (by simp)
      · rw [if_neg hyid] at hxy
        subst hxy
        exact hs y hy
  · intro s2 h2
    cases h : getActiveTimeEntry s u with
    | none => simp [startBreak, h] at h2
    | some e =>
      cases hb : getActiveBreak s e.id with
      | some b => simp [startBreak, h, hb] at h2
      | none =>
        simp only [startBreak, h, hb, Except.ok.injEq] at h2
        subst h2
        exact hs
  · intro s2 d h2
    cases h : getActiveTimeEntry s u with
    | none => simp [endBreak, h] at h2
    | some e =>
      cases hb : getActiveBreak s e.id with
      | none => simp [endBreak, h, hb] at h2
      | some b =>
        unfold endBreak at h2
        rw [h] at h2
        simp only [hb, Except.ok.injEq, Prod.mk.injEq] at h2
        obtain ⟨hs2, hd⟩ := h2
        subst hs2
        exact hs
  · refine List.filter_congr ?_
    intro e he
    have hiff := hs e he
    simp only [isActiveEntryOf]
    rcases hst : e.status <;> rcases hto : e.timeOut <;>
      simp [hst, hto] at hiff ⊢

/-- C5: the active-announcements list is sorted by priority rank
    descending (high = 3, medium = 2, low = 1), equal priorities ordered
    by creation time descending. -/
theorem getActiveAnnouncements_sorted (s : Store) (now : Millis) :
    priorityRank Priority.high = 3 ∧ priorityRank Priority.medium = 2 ∧
    priorityRank Priority.low = 1 ∧
    (getActiveAnnouncements s now).Sorted (fun a b =>
      priorityRank b.priority ≤ priorityRank a.priority ∧
      (priorityRank a.priority = priorityRank b.priority → b.createdAt ≤ a.createdAt)) := by
  refine ⟨rfl, rfl, rfl, ?_⟩
  have h := List.sorted_insertionSort annLE
    ((s.announcements.filter (announcementVisible now)).insertionSort createdDescLE)
  refine List.Pairwise.imp ?_ h
  intro a b hab
  unfold annLE annCmp at hab
  by_cases hc : priorityRank b.priority - priorityRank a.priority ≠ 0
  · rw [if_pos hc] at hab
    exact ⟨sub_nonpos.mp hab, fun heq => (hc (by omega)).elim⟩
  · rw [if_neg hc] at hab
    rw [not_ne_iff] at hc
    exact ⟨by omega, fun _ => sub_nonpos.mp hab⟩

/-- C6: after deleteAnnouncement(id), no read-tracking record with that
    announcementId remains, and the announcement itself is removed; the
    admin handler performs exactly this delete. -/
theorem deleteAnnouncement_removes_reads (s : Store) (i : Nat) :
    (deleteAnnouncement s i).announcementReads.filter (fun r => r.announcementId == i) = [] ∧
    (deleteAnnouncement s i).announcements.filter (fun a => a.id == i) = [] ∧
    adminDeleteAnnouncement s Role.admin i = Except.ok (deleteAnnouncement s i) := by
  refine ⟨?_, ?_, by simp [adminDeleteAnnouncement]⟩
  · rw [List.filter_eq_nil_iff]
    intro r hr
    have hmem := List.mem_filter.mp hr
    simp only [bne_iff_ne, ne_eq] at hmem
    simp [hmem.2]
  · rw [List.filter_eq_nil_iff]
    intro a ha
    have hmem := List.mem_filter.mp ha
    simp only [bne_iff_ne, ne_eq] at hmem
    simp [hmem.2]

/-- The forEach fold distributes over the pre-seeded buckets: each
    bucket receives the sum and the count of the entries of its key. -/
theorem foldl_addEntry (es : List TimeEntry) :
    ∀ m : List (Int × Bucket), es.foldl addEntry m =
      m.map (fun kv => (kv.1,
        ({ total := kv.2.total + ((es.filter (fun e => dayKey e.timeIn == kv.1)).map entryHours).sum,
           count := kv.2.count + (es.filter (fun e => dayKey e.timeIn == kv.1)).length } : Bucket))) := by
  induction es with
  | nil =>
    intro m
    simp only [List.foldl_nil, List.filter_nil, List.map_nil, List.sum_nil, List.length_nil,
      add_zero]
    exact (List.map_id'' (fun kv => rfl) m).symm
  | cons e es ih =>
    intro m
    rw [List.foldl_cons, ih (addEntry m e), addEntry, List.map_map]
    congr 1
    funext kv
    by_cases hk : kv.1 = dayKey e.timeIn
    · simp only [Function.comp_apply, if_pos hk, List.filter_cons]
      have hbe : (dayKey e.timeIn == kv.1) = true := by simp [hk]
      rw [hbe]
      simp only [ite_true, List.map_cons, List.sum_cons, List.length_cons]
      refine Prod.ext rfl ?_
      rw [Bucket.mk.injEq]
      constructor
      · ring
      · omega
    · simp only [Function.comp_apply, if_neg hk, List.filter_cons]
      have hbe : (dayKey e.timeIn == kv.1) = false := by
        simp only [beq_eq_false_iff_ne, ne_eq]
        exact fun h => hk h.symm
      rw [hbe]
      simp

/-- C4 (amended): the average-hours-by-day aggregation equals the
    declarative per-day description — every non-active entry whose
    timeIn lies in the trailing N-day window is bucketed into its
    calendar day, each day reports the average of its entries' hours
    (zero when the day has no entries), and an entry's hours are the
    stored totalHours when that value is present AND nonzero, else the
    timestamp recomputation (zero if no timeOut). -/
theorem getAverageHoursByDay_eq_code (s : Store) (days : Nat) (now : Millis) :
    getAverageHoursByDay s days now = codeAverageHoursByDay s days now := by
  simp only [getAverageHoursByDay, codeAverageHoursByDay]
  rw [foldl_addEntry, List.map_map, List.map_map]
  congr 1
  funext k
  simp only [Function.comp_apply, zero_add, List.filter_filter]

/-- C4 counterexample: the claim says the stored totalHours is used
    whenever present, but the JS truthiness test treats the present
    value 0 as absent and recomputes from the timestamps: the code's
    day-10 row shows 2.0 hours where the claim's rule yields 0. -/
theorem avgHours_stored_zero_cex :
    getAverageHoursByDay zeroHoursStore 5 872000000 ≠
      specAverageHoursByDay zeroHoursStore 5 872000000 := by
  with_unfolding_all decide

/-- C9: whenever a store write raises the duplicate-key violation (error
    code 11000), the error surfaced to the caller is CONFLICT; this
    covers employees.create and employees.update, the two mutations
    whose writes hit the unique openId / employeeId indexes. -/
theorem dupKey_conflict (s : Store) (callerId : Nat) (inp : EmployeeInput)
    (i : Nat) (upd : EmployeeUpdate) (f b o : Option String)
    (hc : createEmployee s inp = Except.error 11000)
    (hu : updateEmployee s i upd = Except.error 11000) :
    employeesCreate s callerId Role.admin inp = Except.error ErrCode.CONFLICT ∧
    employeesUpdate s callerId Role.admin i upd f b o = Except.error ErrCode.CONFLICT := by
  constructor
  · simp [employeesCreate, hc]
  · simp [employeesUpdate, hu]

/-- C9 witness: creating a second E1, or moving user 2 onto E1, raises
    11000 in the store layer and surfaces CONFLICT. -/
theorem dupKey_conflict_w :
    employeesCreate dupStore 9 Role.admin dupInput = Except.error ErrCode.CONFLICT ∧
    employeesUpdate dupStore 9 Role.admin 2 { employeeId := some "E1" } none none none
      = Except.error ErrCode.CONFLICT :=
  dupKey_conflict dupStore 9 dupInput 2 { employeeId := some "E1" } none none none
    (by with_unfolding_all rfl) (by with_unfolding_all rfl)

/-- C10 witness: the empty store satisfies the invariant, and so does the
    store obtained from it by a successful clock-in. -/
theorem timeTracking_invariant_w :
    entryInvariant ({} : Store) ∧
    entryInvariant { ({} : Store) with
      timeEntries := [newTimeEntry ({} : Store) 7 5], nextId := 1 } :=
  ⟨by intro e he; exact absurd he (by simp),
   (timeTracking_invariant ({} : Store) 7 5 none
      (by intro e he; exact absurd he (by simp))).1 _ rfl⟩

end HRMS
